import Mathlib

/-!
# Verification of the kafka-sniffer request pipeline

Shallow embedding of the core of the `kafka-sniffer` repository
(packages `kafka`, `metrics`, `stream`) and proofs about it.

Conventions:
* Go byte slices are `List Nat` (each entry < 256 where it matters).
* Go `int32` / `int16` values are Lean `Int` with explicit two's-complement
  wrapping where the Go code can overflow.
* Go strings that are only used as opaque metric labels are Lean `String`;
  Go strings that are scanned byte-by-byte (SASL tokens, usernames) are
  `List Nat` of their bytes.
* Fallible Go code is embedded in `Except` / `Option`; a Go `panic` that is
  caught by a `recover` boundary is an `Except.error` consumed by the
  embedding of the recovering caller.
-/

namespace Sniffer

/-- Two's-complement interpretation of a 32-bit unsigned value. -/
def toInt32 (u : Nat) : Int :=
  if u < 2 ^ 31 then (u : Int) else (u : Int) - 2 ^ 32

/-- Wrap an unbounded integer into the `int32` range, as Go arithmetic does. -/
def wrap32 (n : Int) : Int :=
  (n + 2 ^ 31) % 2 ^ 32 - 2 ^ 31

/-- Big-endian `uint32` from four bytes, as `binary.BigEndian.Uint32`. -/
def beUint32 (b0 b1 b2 b3 : Nat) : Nat :=
  ((b0 * 256 + b1) * 256 + b2) * 256 + b3

/-- Big-endian `uint16` from two bytes, as `binary.BigEndian.Uint16`. -/
def beUint16 (b0 b1 : Nat) : Nat :=
  b0 * 256 + b1

/-- Two's-complement interpretation of a 16-bit unsigned value. -/
def toInt16 (u : Nat) : Int :=
  if u < 2 ^ 15 then (u : Int) else (u : Int) - 2 ^ 16

/-- `MaxRequestSize` from `kafka`: 100 MiB ceiling on a request body. -/
def MaxRequestSize : Int := 100 * 1024 * 1024

/-- `DecodeLength`: the declared frame size, read as a big-endian `int32`
from the first four bytes of the 8-byte header. -/
def DecodeLength (b0 b1 b2 b3 : Nat) : Int :=
  toInt32 (beUint32 b0 b1 b2 b3)

/-- The size guard of `DecodeRequest` (kafka request decoder): with
`length := size - 4` computed in `int32` arithmetic, the function returns a
`PacketDecodingError` when `length < 0` ("invalid message length") or when
`length <= 4 || length > MaxRequestSize` ("too large or too small").
`true` means the frame is rejected by a size-bound error. -/
def decodeRequestSizeError (size : Int) : Bool :=
  let length := wrap32 (size - 4)
  decide (length < 0) || decide (length ≤ 4) || decide (length > MaxRequestSize)

/-- The spec's predicate for C3: the declared size lies outside `(4, MaxRequestSize]`. -/
def specSizeOutOfBounds (size : Int) : Bool :=
  decide (size ≤ 4) || decide (size > MaxRequestSize)

end Sniffer

namespace Sniffer

/-- C3 counterexample: the declared size 5 lies inside the spec's interval
`(4, MaxRequestSize]`, so the claim says no size-bound error is returned for
it, yet `DecodeRequest` rejects it (its guard tests `size - 4`, not `size`). -/
theorem c3_counterexample :
    specSizeOutOfBounds 5 = false ∧ decodeRequestSizeError 5 = true := by
  constructor <;> decide

/-- C3 (amended): reading one frame fails with a size-bound error exactly when
the declared size minus 4 lies outside `(4, MaxRequestSize]`, i.e. when the
declared size lies outside `(8, MaxRequestSize + 4]` (for every `int32`
declared size, two's-complement wrap-around included). -/
theorem c3_size_guard_characterization (s : Int)
    (hlo : -(2 ^ 31) ≤ s) (hhi : s < 2 ^ 31) :
    decodeRequestSizeError s = true ↔ (s ≤ 8 ∨ s > MaxRequestSize + 4) := by
  unfold decodeRequestSizeError MaxRequestSize wrap32
  simp only [Bool.or_eq_true, decide_eq_true_eq]
  omega

/-- Witness for `c3_size_guard_characterization` at the concrete size 9:
inside the amended interval, hence no error. -/
theorem c3_size_guard_characterization_witness :
    decodeRequestSizeError 9 = false := by
  have h := c3_size_guard_characterization 9 (by decide) (by decide)
  revert h
  decide

/-! ## Byte decoder primitives (component C1 of the spec)

The `realDecoder` implementing `PacketDecoder` is part of this repository but
its file is not among the provided sources (only its callers are), so the
primitives are modelled from the spec, §4.1. A decoder state is the list of
bytes not yet consumed. -/

/-- Error kinds of the byte decoder, spec §7: `Truncated` when fewer bytes
remain than required, `MalformedLength` for a negative length prefix. -/
inductive PDErr
  | truncated
  | malformedLength
  deriving DecidableEq, Repr

/-- Modelled from the spec: signed 8-bit read (`getInt8`). -/
def getInt8 : List Nat → Except PDErr (Int × List Nat)
  | b :: rest => .ok (if b < 2 ^ 7 then (b : Int) else (b : Int) - 2 ^ 8, rest)
  | [] => .error .truncated

/-- Modelled from the spec: signed big-endian 16-bit read (`getInt16`). -/
def getInt16 : List Nat → Except PDErr (Int × List Nat)
  | b0 :: b1 :: rest => .ok (toInt16 (beUint16 b0 b1), rest)
  | _ => .error .truncated

/-- Modelled from the spec: signed big-endian 32-bit read (`getInt32`). -/
def getInt32 : List Nat → Except PDErr (Int × List Nat)
  | b0 :: b1 :: b2 :: b3 :: rest => .ok (toInt32 (beUint32 b0 b1 b2 b3), rest)
  | _ => .error .truncated

/-- Modelled from the spec: signed big-endian 64-bit read (`getInt64`). -/
def getInt64 : List Nat → Except PDErr (Int × List Nat)
  | b0 :: b1 :: b2 :: b3 :: b4 :: b5 :: b6 :: b7 :: rest =>
      let u := ((((((b0 * 256 + b1) * 256 + b2) * 256 + b3) * 256 + b4) * 256
                  + b5) * 256 + b6) * 256 + b7
      .ok (if u < 2 ^ 63 then (u : Int) else (u : Int) - 2 ^ 64, rest)
  | _ => .error .truncated

/-- Modelled from the spec: array length read (`getArrayLength`): an i32 that
additionally fails with `MalformedLength` when negative. -/
def getArrayLength (l : List Nat) : Except PDErr (Int × List Nat) := do
  let (n, rest) ← getInt32 l
  if n < 0 then .error .malformedLength else .ok (n, rest)

/-- Modelled from the spec: length-prefixed string read (`getString`): an i16
length (−1 ⇒ absent, yielding the empty string) followed by that many bytes.
The string value is kept as its byte list. -/
def getString (l : List Nat) : Except PDErr (List Nat × List Nat) := do
  let (n, rest) ← getInt16 l
  if n = -1 then .ok ([], rest)
  else if n < -1 then .error .malformedLength
  else if rest.length < n.toNat then .error .truncated
  else .ok (rest.take n.toNat, rest.drop n.toNat)

/-! ## C10: Metadata and ListOffsets body decoders -/

/-- Result of `MetadataRequest.Decode`: the version and the topic names. -/
structure MetadataRequest where
  Version : Int
  Topics : List (List Nat)
  deriving DecidableEq, Repr

/-- The topic-decoding closure inside `MetadataRequest.Decode`: read
`topicCount` strings; any failed read is a panic caught by the recover
boundary, modelled as the error of this inner decoder. -/
def metadataDecodeTopics : Nat → List Nat → Except PDErr (List (List Nat) × List Nat)
  | 0, rest => .ok ([], rest)
  | n + 1, rest => do
      let (topic, rest1) ← getString rest
      let (topics, rest2) ← metadataDecodeTopics n rest1
      .ok (topic :: topics, rest2)

/-- `MetadataRequest.Decode`: returns the populated body and the Go `error`
return value. Every branch of the source returns `nil`, so the second
component is built as `none` at each return, mirroring the code. -/
def metadataDecode (data : List Nat) (version : Int) : MetadataRequest × Option PDErr :=
  match getArrayLength data with
  | .error _ => (⟨version, []⟩, none)
  | .ok (topicCount, rest) =>
      if topicCount ≤ 0 ∨ topicCount > 10000 then (⟨version, []⟩, none)
      else
        match metadataDecodeTopics topicCount.toNat rest with
        | .ok (topics, _) => (⟨version, topics⟩, none)
        | .error _ => (⟨version, []⟩, none)

/-- One partition entry of a `ListOffsetsRequest` topic. -/
structure ListOffsetsPartition where
  Partition : Int
  Time : Int
  deriving DecidableEq, Repr

/-- One topic entry of a `ListOffsetsRequest`. -/
structure ListOffsetsTopic where
  Topic : List Nat
  Partitions : List ListOffsetsPartition
  deriving DecidableEq, Repr

/-- Result of `ListOffsetsRequest.Decode`. -/
structure ListOffsetsRequest where
  ReplicaID : Int
  Version : Int
  Topics : List ListOffsetsTopic
  deriving DecidableEq, Repr

/-- Partition loop of `ListOffsetsRequest.Decode`: `partitionCount` pairs of
(partition i32, time i64); failures are panics caught by the recover. -/
def listOffsetsDecodeParts : Nat → List Nat →
    Except PDErr (List ListOffsetsPartition × List Nat)
  | 0, rest => .ok ([], rest)
  | n + 1, rest => do
      let (p, rest1) ← getInt32 rest
      let (t, rest2) ← getInt64 rest1
      let (ps, rest3) ← listOffsetsDecodeParts n rest2
      .ok (⟨p, t⟩ :: ps, rest3)

/-- Topic loop of `ListOffsetsRequest.Decode`: per topic a string, a
partition count (validated against `[0, 10000]` — the panic on violation is
the error), then the partitions. -/
def listOffsetsDecodeTopics : Nat → List Nat →
    Except PDErr (List ListOffsetsTopic × List Nat)
  | 0, rest => .ok ([], rest)
  | n + 1, rest => do
      let (topic, rest1) ← getString rest
      let (pc, rest2) ← getArrayLength rest1
      if pc < 0 ∨ pc > 10000 then .error .malformedLength
      else do
        let (ps, rest3) ← listOffsetsDecodeParts pc.toNat rest2
        let (ts, rest4) ← listOffsetsDecodeTopics n rest3
        .ok (⟨topic, ps⟩ :: ts, rest4)

/-- `ListOffsetsRequest.Decode`: the recover boundary converts any inner
panic into an empty topic list; every return of the source is `return nil`,
mirrored by the `none` second component. -/
def listOffsetsDecode (data : List Nat) (version : Int) :
    ListOffsetsRequest × Option PDErr :=
  match getInt32 data with
  | .error _ => (⟨0, version, []⟩, none)
  | .ok (replicaID, rest) =>
      match getArrayLength rest with
      | .error _ => (⟨replicaID, version, []⟩, none)
      | .ok (topicCount, rest1) =>
          if topicCount < 0 ∨ topicCount > 10000 then (⟨replicaID, version, []⟩, none)
          else
            match listOffsetsDecodeTopics topicCount.toNat rest1 with
            | .ok (ts, _) => (⟨replicaID, version, ts⟩, none)
            | .error _ => (⟨replicaID, version, []⟩, none)

/-- C10: the Metadata and ListOffsets body decoders are total in the error
monad — for every input they return a nil error, and under each of the
failure conditions (failed or out-of-range topic count, failed topic /
partition reads) the decoded body carries an empty topic list instead of a
propagated `Truncated` / `MalformedLength` error. -/
theorem c10_metadata_listoffsets_total :
    (∀ data v, (metadataDecode data v).2 = none) ∧
    (∀ data v, (listOffsetsDecode data v).2 = none) ∧
    (∀ data v,
      ((∃ e, getArrayLength data = .error e) ∨
       (∃ tc rest, getArrayLength data = .ok (tc, rest) ∧ (tc ≤ 0 ∨ tc > 10000)) ∨
       (∃ tc rest e, getArrayLength data = .ok (tc, rest) ∧
          metadataDecodeTopics tc.toNat rest = .error e)) →
      (metadataDecode data v).1.Topics = []) ∧
    (∀ data v,
      ((∃ e, getInt32 data = .error e) ∨
       (∃ r rest, getInt32 data = .ok (r, rest) ∧
         ((∃ e, getArrayLength rest = .error e) ∨
          (∃ tc rest1, getArrayLength rest = .ok (tc, rest1) ∧ (tc < 0 ∨ tc > 10000)) ∨
          (∃ tc rest1 e, getArrayLength rest = .ok (tc, rest1) ∧
             listOffsetsDecodeTopics tc.toNat rest1 = .error e)))) →
      (listOffsetsDecode data v).1.Topics = []) := by
  refine ⟨?_, ?_, ?_, ?_⟩
  · intro data v
    unfold metadataDecode
    split
    · rfl
    · split
      · rfl
      · split <;> rfl
  · intro data v
    unfold listOffsetsDecode
    split
    · rfl
    · split
      · rfl
      · split
        · rfl
        · split <;> rfl
  · intro data v h
    unfold metadataDecode
    rcases h with ⟨e, he⟩ | ⟨tc, rest, hok, hbad⟩ | ⟨tc, rest, e, hok, herr⟩
    · simp only [he]
    · simp only [hok]
      rw [if_pos hbad]
    · simp only [hok]
      split
      · rfl
      · simp only [herr]
  · intro data v h
    unfold listOffsetsDecode
    rcases h with ⟨e, he⟩ | ⟨r, rest, hr, h2⟩
    · simp only [he]
    · simp only [hr]
      rcases h2 with ⟨e, he⟩ | ⟨tc, rest1, hok, hbad⟩ | ⟨tc, rest1, e, hok, herr⟩
      · simp only [he]
      · simp only [hok]
        rw [if_pos hbad]
      · simp only [hok]
        split
        · rfl
        · simp only [herr]

/-- Witness for `c10_metadata_listoffsets_total`: the negative count input
`FF FF FF FF` for Metadata and the empty input for ListOffsets both decode
to a nil error and an empty topic list. -/
theorem c10_metadata_listoffsets_total_witness :
    (metadataDecode [255, 255, 255, 255] 1).1.Topics = [] ∧
    (listOffsetsDecode [] 0).1.Topics = [] := by
  constructor
  · exact c10_metadata_listoffsets_total.2.2.1 [255, 255, 255, 255] 1
      (Or.inl ⟨.malformedLength, rfl⟩)
  · exact c10_metadata_listoffsets_total.2.2.2 [] 0
      (Or.inl ⟨.truncated, rfl⟩)

/-! ## SASL identity extraction (kafka/sasl_handshake_request.go,
stream/auth_extractor.go, stream/auth_helper.go)

Go strings scanned byte-wise are `List Nat` of their bytes. -/

/-- First index (from the start of `l`) at which `pat` occurs as a
contiguous subsequence; `bytes.Index` (−1 becomes `none`). -/
def firstInfixIdx (pat : List Nat) : List Nat → Option Nat
  | [] => if pat.isPrefixOf [] then some 0 else none
  | b :: rest =>
      if pat.isPrefixOf (b :: rest) then some 0
      else (firstInfixIdx pat rest).map (· + 1)

/-- `bytes.Contains` / `strings.Contains`. -/
def containsSeq (pat l : List Nat) : Bool :=
  (firstInfixIdx pat l).isSome

/-- `bytes.Split` / `strings.Split` on a one-byte separator. -/
def splitOnByte (sep : Nat) : List Nat → List (List Nat)
  | [] => [[]]
  | b :: rest =>
      let r := splitOnByte sep rest
      if b = sep then [] :: r
      else
        match r with
        | h :: t => (b :: h) :: t
        | [] => [[b]]

/-- Value of one base64url alphabet byte. -/
def b64Val (c : Nat) : Option Nat :=
  if 65 ≤ c ∧ c ≤ 90 then some (c - 65)
  else if 97 ≤ c ∧ c ≤ 122 then some (c - 97 + 26)
  else if 48 ≤ c ∧ c ≤ 57 then some (c - 48 + 52)
  else if c = 45 then some 62
  else if c = 95 then some 63
  else none

/-- `base64.RawURLEncoding.DecodeString`: unpadded base64url; a group of 4
symbols yields 3 bytes, trailing groups of 2 or 3 yield 1 or 2 bytes, a
trailing group of 1 (or any non-alphabet byte) is an error. -/
def base64urlDecode : List Nat → Option (List Nat)
  | [] => some []
  | [_] => none
  | [a, b] => do
      let va ← b64Val a
      let vb ← b64Val b
      some [va * 4 + vb / 16]
  | [a, b, c] => do
      let va ← b64Val a
      let vb ← b64Val b
      let vc ← b64Val c
      some [va * 4 + vb / 16, vb % 16 * 16 + vc / 4]
  | a :: b :: c :: d :: rest => do
      let va ← b64Val a
      let vb ← b64Val b
      let vc ← b64Val c
      let vd ← b64Val d
      let tail ← base64urlDecode rest
      some ([va * 4 + vb / 16, vb % 16 * 16 + vc / 4, vc % 4 * 64 + vd] ++ tail)

/-- Result of `SaslAuthenticateRequest.tryDecodePlainAuth`: the extracted
username bytes and the mechanism string (empty when nothing was derived). -/
structure AuthExtract where
  Username : List Nat
  Mechanism : String
  deriving DecidableEq, Repr

/-- Approach 1 of `tryDecodePlainAuth` (standard PLAIN layout): when the
bytes begin with `0x00`, find the next `0x00`; `passwordStart` is the index
after it and must lie strictly inside the token; the username is the segment
between the two null bytes. -/
def plainSplit (b : List Nat) : Option (List Nat) :=
  if b.head? = some 0 then
    match (b.drop 1).findIdx? (· == 0) with
    | some j =>
        -- absolute second-null index is j+1, passwordStart = j+2
        if j + 2 > 1 ∧ j + 2 < b.length then some ((b.drop 1).take j) else none
    | none => none
  else none

/-- Approach 2 of `tryDecodePlainAuth` (SCRAM): scan for `n=` while at least
three bytes remain; the username is the non-empty run up to the next comma;
otherwise keep scanning. -/
def scramScan : List Nat → Option (List Nat)
  | a :: b :: c :: rest =>
      if a = 110 ∧ b = 61 then
        match (c :: rest).findIdx? (· == 44) with
        | some k =>
            if 0 < k then some ((c :: rest).take k)
            else scramScan (b :: c :: rest)
        | none => scramScan (b :: c :: rest)
      else scramScan (b :: c :: rest)
  | _ => none

/-- The seven bytes of the JSON key pattern `"sub":"` searched in a JWT
payload. -/
def subPat : List Nat := [34, 115, 117, 98, 34, 58, 34]

/-- Approach 3 of `tryDecodePlainAuth` (JWT / OAUTHBEARER): exactly three
dot-separated segments, base64url-decode the middle one, take the value of a
`"sub":"…"` field. -/
def jwtSub (b : List Nat) : Option (List Nat) :=
  match splitOnByte 46 b with
  | [_, payload, _] =>
      match base64urlDecode payload with
      | some dec =>
          if dec.length > 0 then
            match firstInfixIdx subPat dec with
            | some idx =>
                match (dec.drop (idx + 7)).findIdx? (· == 34) with
                | some k => if 0 < k then some ((dec.drop (idx + 7)).take k) else none
                | none => none
            | none => none
          else none
      | none => none
  | _ => none

/-- Approach 4 of `tryDecodePlainAuth` (generic): the first maximal run of
printable ASCII (32 ≤ b < 127); it becomes the username when its length is
at least 3 and at most 100, with mechanism `UNKNOWN`. -/
def genericPrintableRun (b : List Nat) : AuthExtract :=
  match b.findIdx? (fun x => decide (32 ≤ x ∧ x < 127)) with
  | none => ⟨[], ""⟩
  | some s =>
      match (b.drop s).findIdx? (fun x => decide (x < 32 ∨ 127 ≤ x)) with
      | some k =>
          if 3 ≤ k then
            if k ≤ 100 then ⟨(b.drop s).take k, "UNKNOWN"⟩ else ⟨[], ""⟩
          else ⟨[], ""⟩
      | none =>
          if 3 ≤ (b.drop s).length then
            if (b.drop s).length ≤ 100 then ⟨b.drop s, "UNKNOWN"⟩ else ⟨[], ""⟩
          else ⟨[], ""⟩

/-- `SaslAuthenticateRequest.tryDecodePlainAuth`: tokens shorter than 3
bytes yield nothing; otherwise the four approaches are tried in order and
the first hit wins, setting the mechanism. -/
def tryDecodePlainAuth (b : List Nat) : AuthExtract :=
  if b.length < 3 then ⟨[], ""⟩
  else
    match plainSplit b with
    | some u => ⟨u, "PLAIN"⟩
    | none =>
        match scramScan b with
        | some u => ⟨u, "SCRAM"⟩
        | none =>
            match jwtSub b with
            | some u => ⟨u, "JWT"⟩
            | none => genericPrintableRun b

/-- The username character class `[A-Za-z0-9._@-]` checked by
`isValidUsername`. -/
def classByte (c : Nat) : Bool :=
  decide ((97 ≤ c ∧ c ≤ 122) ∨ (65 ≤ c ∧ c ≤ 90) ∨ (48 ≤ c ∧ c ≤ 57) ∨
    c = 46 ∨ c = 95 ∨ c = 45 ∨ c = 64)

/-- `isValidUsername` (stream/auth_extractor.go): length in [3, 100] and all
characters in the class. -/
def isValidUsername (s : List Nat) : Bool :=
  if s.length < 3 ∨ s.length > 100 then false
  else s.all classByte

/-- `isPrintable` (stream/auth_extractor.go). -/
def isPrintableByte (c : Nat) : Bool :=
  decide (32 ≤ c ∧ c < 127)

/-- ASCII lower-casing of one byte, as `strings.ToLower` acts on ASCII. -/
def toLowerByte (c : Nat) : Nat :=
  if 65 ≤ c ∧ c ≤ 90 then c + 32 else c

/-- `isCommonWord`: the lower-cased candidate is one of a fixed set of
frequent false-positive words. -/
def isCommonWord (s : List Nat) : Bool :=
  let l := s.map toLowerByte
  decide (l ∈ [[110, 117, 108, 108], [116, 114, 117, 101], [102, 97, 108, 115, 101],
    [121, 101, 115], [110, 111], [100, 97, 116, 97], [106, 115, 111, 110],
    [116, 101, 120, 116], [116, 121, 112, 101], [107, 101, 121],
    [118, 97, 108, 117, 101], [99, 111, 100, 101], [110, 97, 109, 101],
    [117, 115, 101, 114], [116, 111, 107, 101, 110]])

/-- `extractPlainUsername` (stream/auth_extractor.go): PLAIN layout with a
leading null; the segment up to the second null is returned only when it
passes `isValidUsername`. -/
def extractPlainUsername (data : List Nat) : List Nat :=
  if data.length < 3 ∨ data.head? ≠ some 0 then []
  else
    match (data.drop 1).findIdx? (· == 0) with
    | some j =>
        -- absolute second-null index is j+1; require secondNull > 1
        if j + 1 > 1 then
          if isValidUsername ((data.drop 1).take j) then (data.drop 1).take j
          else []
        else []
    | none => []

/-- `extractScramUsername` (stream/auth_extractor.go): value after the first
`n=` up to a comma or null, validated by `isValidUsername`. -/
def extractScramUsername (data : List Nat) : List Nat :=
  match firstInfixIdx [110, 61] data with
  | some idx =>
      if idx + 2 < data.length then
        match (data.drop (idx + 2)).findIdx? (fun x => x == 44 || x == 0) with
        | some k =>
            if 0 < k then
              if isValidUsername ((data.drop (idx + 2)).take k) then
                (data.drop (idx + 2)).take k
              else []
            else []
        | none => []
      else []
  | none => []

/-- The JWT-style probe at the start of `extractGenericUsername`: locate a
`"sub":"…"` field and validate its value. -/
def jwtProbe (data : List Nat) : Option (List Nat) :=
  match firstInfixIdx subPat data with
  | some idx =>
      if idx + 7 < data.length then
        match (data.drop (idx + 7)).findIdx? (· == 34) with
        | some k =>
            if 0 < k then
              if isValidUsername ((data.drop (idx + 7)).take k) then
                some ((data.drop (idx + 7)).take k)
              else none
            else none
        | none => none
      else none
  | none => none

/-- `extractGenericUsername` (stream/auth_extractor.go): first the JWT-style
probe, then the first maximal printable run of length ≥ 3 that is a valid
username and not a common word. The imperative run scan is rendered as a
scan over the maximal printable runs (splitting on non-printable bytes),
which are exactly the candidates the loop builds. -/
def extractGenericUsername (data : List Nat) : List Nat :=
  match jwtProbe data with
  | some u => u
  | none =>
      match (splitOnByte 0 ((data.map fun c =>
          if isPrintableByte c then c else 0))).findSome? (fun r =>
          if 3 ≤ r.length ∧ isValidUsername r = true ∧ isCommonWord r = false
          then some r else none) with
      | some u => u
      | none => []

/-- Inner scan of the console-producer branch of `extractSaslPlainUsername`
(stream/auth_helper.go): length of the run of uppercase letters,
underscores and digits starting here (capped at 24 positions), and whether
that run contains a digit. -/
def upScan : Nat → List Nat → Nat × Bool
  | 0, _ => (0, false)
  | _ + 1, [] => (0, false)
  | cap + 1, c :: rest =>
      if (65 ≤ c ∧ c ≤ 90) ∨ c = 95 then
        ((upScan cap rest).1 + 1, (upScan cap rest).2)
      else if 48 ≤ c ∧ c ≤ 57 then
        ((upScan cap rest).1 + 1, true)
      else (0, false)

/-- Outer scan of the console-producer branch: try every position `i` with
more than 8 bytes remaining whose byte is an uppercase letter; accept the
first whose run has length ≥ 8 and contains a digit. -/
def consoleScan : List Nat → Option (List Nat)
  | [] => none
  | c :: rest =>
      if (c :: rest : List Nat).length ≥ 9 then
        if 65 ≤ c ∧ c ≤ 90 then
          if (upScan 24 (c :: rest)).1 ≥ 8 ∧ (upScan 24 (c :: rest)).2 then
            some ((c :: rest).take (upScan 24 (c :: rest)).1)
          else consoleScan rest
        else consoleScan rest
      else none

/-- The bytes of `"console-producer"`. -/
def consoleProducerBytes : List Nat :=
  [99, 111, 110, 115, 111, 108, 101, 45, 112, 114, 111, 100, 117, 99, 101, 114]

/-- The bytes of `"CLI-PRODUCER"`. -/
def cliProducerBytes : List Nat :=
  [67, 76, 73, 45, 80, 82, 79, 68, 85, 67, 69, 82]

/-- Per-part test of the generic branch of `extractSaslPlainUsername`:
length in [8, 24], not containing `producer` / `consumer` / `retry`
(lower-cased), all uppercase letters or digits with at least one of each,
and either length in [12, 18] or at least 3 uppercase and 3 digits. -/
def partCheck (p : List Nat) : Option (List Nat) :=
  if p.length < 8 ∨ p.length > 24 then none
  else
    if containsSeq [112, 114, 111, 100, 117, 99, 101, 114] (p.map toLowerByte) ∨
       containsSeq [99, 111, 110, 115, 117, 109, 101, 114] (p.map toLowerByte) ∨
       containsSeq [114, 101, 116, 114, 121] (p.map toLowerByte) then none
    else
      if p.all (fun c => decide ((65 ≤ c ∧ c ≤ 90) ∨ (48 ≤ c ∧ c ≤ 57))) ∧
         p.any (fun c => decide (65 ≤ c ∧ c ≤ 90)) ∧
         p.any (fun c => decide (48 ≤ c ∧ c ≤ 57)) then
        if (12 ≤ p.length ∧ p.length ≤ 18) ∨
           (3 ≤ p.countP (fun c => decide (65 ≤ c ∧ c ≤ 90)) ∧
            3 ≤ p.countP (fun c => decide (48 ≤ c ∧ c ≤ 57))) then
          some p
        else none
      else none

/-- `extractSaslPlainUsername` (stream/auth_helper.go): tokens shorter than
3 bytes fail; tokens containing `console-producer` yield the scanned
candidate or the literal `CLI-PRODUCER`; otherwise the token's
printable-ASCII rendering (non-printables become `.`) is split on `.` and
the first part passing `partCheck` is returned. -/
def extractSaslPlainUsername (data : List Nat) : List Nat × Bool :=
  if data.length < 3 then ([], false)
  else if containsSeq consoleProducerBytes data then
    match consoleScan data with
    | some c => (c, true)
    | none => (cliProducerBytes, true)
  else
    match (splitOnByte 46 (data.map fun b =>
        if 32 ≤ b ∧ b ≤ 126 then b else 46)).findSome? partCheck with
    | some p => (p, true)
    | none => ([], false)

/-- The spec's requirement on emitted usernames (design note §9): characters
from `[A-Za-z0-9._@-]` and length between 3 and 100. Stated from the spec's
words, to be compared with the source-side extractors. -/
def specUsernameOk (u : List Nat) : Bool :=
  decide (3 ≤ u.length) && decide (u.length ≤ 100) && u.all classByte

/-- A search for `0` fails on a zero-free list. -/
theorem findIdx?_zero_none (l : List Nat) (h : ∀ x ∈ l, x ≠ 0) :
    l.findIdx? (· == 0) = none := by
  induction l with
  | nil => rfl
  | cons a t ih =>
      rw [List.findIdx?_cons]
      have ha : (a == 0) = false := by simp [h a (by simp)]
      rw [ha]
      simp [ih (fun x hx => h x (List.mem_cons_of_mem _ hx))]

/-- A successful `findSome?` comes from some member of the list. -/
theorem findSome?_mem {α β : Type} (f : α → Option β) (l : List α) (u : β)
    (h : l.findSome? f = some u) : ∃ r ∈ l, f r = some u := by
  induction l with
  | nil => simp [List.findSome?] at h
  | cons a t ih =>
      rw [List.findSome?_cons] at h
      revert h
      match hfa : f a with
      | some v => intro h; simp at h; exact ⟨a, by simp, by rw [hfa, h]⟩
      | none =>
          intro h
          obtain ⟨r, hr, hfr⟩ := ih h
          exact ⟨r, by simp [hr], hfr⟩

/-- `isValidUsername` enforces exactly the spec's class and length bounds. -/
theorem isValid_imp_ok (u : List Nat) (h : isValidUsername u = true) :
    specUsernameOk u = true := by
  unfold isValidUsername at h
  split at h
  · exact absurd h (by simp)
  · next hc =>
      unfold specUsernameOk
      simp only [Bool.and_eq_true, decide_eq_true_eq]
      refine ⟨⟨?_, ?_⟩, h⟩ <;> omega

/-- `extractPlainUsername` returns nothing or a validated username. -/
theorem extractPlainUsername_shape (data : List Nat) :
    extractPlainUsername data = [] ∨
      isValidUsername (extractPlainUsername data) = true := by
  unfold extractPlainUsername
  split
  · exact Or.inl rfl
  · split
    · split
      · split
        · next h => exact Or.inr h
        · exact Or.inl rfl
      · exact Or.inl rfl
    · exact Or.inl rfl

/-- `extractScramUsername` returns nothing or a validated username. -/
theorem extractScramUsername_shape (data : List Nat) :
    extractScramUsername data = [] ∨
      isValidUsername (extractScramUsername data) = true := by
  unfold extractScramUsername
  split
  · split
    · split
      · split
        · split
          · next h => exact Or.inr h
          · exact Or.inl rfl
        · exact Or.inl rfl
      · exact Or.inl rfl
    · exact Or.inl rfl
  · exact Or.inl rfl

/-- `extractGenericUsername` returns nothing or a validated username. -/
theorem extractGenericUsername_shape (data : List Nat) :
    extractGenericUsername data = [] ∨
      isValidUsername (extractGenericUsername data) = true := by
  unfold extractGenericUsername
  split
  · -- jwtProbe hit: the probe is guarded by isValidUsername
    next u hu =>
      right
      unfold jwtProbe at hu
      split at hu
      · split at hu
        · split at hu
          · split at hu
            · split at hu
              · next h => injection hu with hu; exact hu ▸ h
              · cases hu
            · cases hu
          · cases hu
        · cases hu
      · cases hu
  · -- printable-run scan
    split
    · next u hu =>
        obtain ⟨r, _, hfr⟩ := findSome?_mem _ _ _ hu
        revert hfr
        split
        · next hcond =>
            intro hfr
            injection hfr with hfr
            exact Or.inr (hfr ▸ hcond.2.1)
        · intro hfr; cases hfr
    · exact Or.inl rfl

/-- The run measured by `upScan` is bounded by the cap and the input. -/
theorem upScan_le (cap : Nat) (l : List Nat) :
    (upScan cap l).1 ≤ cap ∧ (upScan cap l).1 ≤ l.length := by
  induction cap generalizing l with
  | zero => simp [upScan]
  | succ cap ih =>
      cases l with
      | nil => simp [upScan]
      | cons c rest =>
          have h := ih rest
          unfold upScan
          split
          · dsimp only
            simp only [List.length_cons]
            omega
          · split
            · dsimp only
              simp only [List.length_cons]
              omega
            · simp

/-- Every byte inside the run measured by `upScan` is an uppercase letter,
an underscore or a digit. -/
theorem upScan_all (cap : Nat) (l : List Nat) :
    ∀ x ∈ l.take (upScan cap l).1,
      (65 ≤ x ∧ x ≤ 90) ∨ x = 95 ∨ (48 ≤ x ∧ x ≤ 57) := by
  induction cap generalizing l with
  | zero => simp [upScan]
  | succ cap ih =>
      cases l with
      | nil => simp [upScan]
      | cons c rest =>
          unfold upScan
          split
          · next hcase =>
              dsimp only
              rw [List.take_succ_cons]
              rintro x hx
              rcases List.mem_cons.mp hx with rfl | hx
              · tauto
              · exact ih rest x hx
          · split
            · next hcase =>
                dsimp only
                rw [List.take_succ_cons]
                rintro x hx
                rcases List.mem_cons.mp hx with rfl | hx
                · tauto
                · exact ih rest x hx
            · simp

/-- Any candidate accepted by the console-producer scan satisfies the
spec's username constraints. -/
theorem consoleScan_ok (l u : List Nat) (h : consoleScan l = some u) :
    specUsernameOk u = true := by
  induction l with
  | nil => simp [consoleScan] at h
  | cons c rest ih =>
      unfold consoleScan at h
      split at h
      · split at h
        · split at h
          · next hcond =>
              injection h with h
              subst h
              have hle := upScan_le 24 (c :: rest)
              have hall := upScan_all 24 (c :: rest)
              unfold specUsernameOk
              simp only [Bool.and_eq_true, decide_eq_true_eq, List.all_eq_true]
              have hlen : ((c :: rest).take (upScan 24 (c :: rest)).1).length
                  = (upScan 24 (c :: rest)).1 := by
                rw [List.length_take]
                omega
              obtain ⟨hc8, -⟩ := hcond
              refine ⟨⟨by omega, by omega⟩, ?_⟩
              intro x hx
              have hcl := hall x hx
              unfold classByte
              simp only [decide_eq_true_eq]
              omega
          · exact ih h
        · exact ih h
      · cases h

/-- Any part accepted by `partCheck` satisfies the spec's username
constraints. -/
theorem partCheck_ok (p u : List Nat) (h : partCheck p = some u) :
    specUsernameOk u = true := by
  unfold partCheck at h
  split at h
  · cases h
  · next hlen =>
      split at h
      · cases h
      · split at h
        · next hcls =>
            split at h
            · injection h with h
              subst h
              obtain ⟨hall, -, -⟩ := hcls
              unfold specUsernameOk
              simp only [List.all_eq_true, decide_eq_true_eq] at hall
              simp only [Bool.and_eq_true, decide_eq_true_eq, List.all_eq_true]
              refine ⟨⟨by omega, by omega⟩, ?_⟩
              intro x hx
              have hcl := hall x hx
              unfold classByte
              simp only [decide_eq_true_eq]
              omega
            · cases h
        · cases h

/-- The fallback approach of `tryDecodePlainAuth` labels its result
`UNKNOWN` or stays empty. -/
theorem genericPrintableRun_mech (b : List Nat) :
    (genericPrintableRun b).Mechanism = "UNKNOWN" ∨
      (genericPrintableRun b).Mechanism = "" := by
  unfold genericPrintableRun
  split
  · exact Or.inr rfl
  · split
    · split
      · split
        · exact Or.inl rfl
        · exact Or.inr rfl
      · exact Or.inr rfl
    · split
      · split
        · exact Or.inl rfl
        · exact Or.inr rfl
      · exact Or.inr rfl

/-- C6 counterexample: a PLAIN-style token that begins with `0x00` and has
no second `0x00` still yields an identity — the structured extraction's
generic fallback derives the username `user1` (mechanism `UNKNOWN`) from
the token `00 75 73 65 72 31`. -/
theorem c6_counterexample :
    tryDecodePlainAuth [0, 117, 115, 101, 114, 49] =
      ⟨[117, 115, 101, 114, 49], "UNKNOWN"⟩ ∧
    (tryDecodePlainAuth [0, 117, 115, 101, 114, 49]).Username ≠ [] := by
  constructor <;> decide

/-- C6 (amended): for every SASL PLAIN token beginning with `0x00` and
containing no second `0x00`, the raw-token extractor `extractPlainUsername`
yields no identity and the structured extraction derives no PLAIN identity
(its PLAIN split fails, so any identity it still emits comes from the
SCRAM / JWT / generic fallbacks and is never labelled `PLAIN`). -/
theorem c6_no_second_null_no_plain_identity (b : List Nat)
    (_hhead : b.head? = some 0) (htail : ∀ x ∈ b.drop 1, x ≠ 0) :
    extractPlainUsername b = [] ∧ plainSplit b = none ∧
      (tryDecodePlainAuth b).Mechanism ≠ "PLAIN" := by
  have hfind : (b.drop 1).findIdx? (· == 0) = none := findIdx?_zero_none _ htail
  have hps : plainSplit b = none := by
    unfold plainSplit
    rw [hfind]
    simp
  refine ⟨?_, hps, ?_⟩
  · unfold extractPlainUsername
    rw [hfind]
    simp
  · unfold tryDecodePlainAuth
    split
    · simp
    · rw [hps]
      cases hsc : scramScan b with
      | some u => simp
      | none =>
          cases hj : jwtSub b with
          | some v => simp
          | none =>
              rcases genericPrintableRun_mech b with h | h <;> simp [h]

/-- Witness for `c6_no_second_null_no_plain_identity` on the token
`00 75 73 65 72 31`. -/
theorem c6_no_second_null_no_plain_identity_witness :
    extractPlainUsername [0, 117, 115, 101, 114, 49] = [] ∧
      (tryDecodePlainAuth [0, 117, 115, 101, 114, 49]).Mechanism ≠ "PLAIN" := by
  have h := c6_no_second_null_no_plain_identity [0, 117, 115, 101, 114, 49]
    (by decide) (by decide)
  exact ⟨h.1, h.2.2⟩

/-- C7 counterexample: the structured SaslAuthenticate decoding emits the
username `a!#` (between the two nulls of `00 61 21 23 00 70`), which
contains characters outside `[A-Za-z0-9._@-]` — no character-class or
length validation is applied on that path. -/
theorem c7_counterexample :
    (tryDecodePlainAuth [0, 97, 33, 35, 0, 112]).Mechanism = "PLAIN" ∧
    (tryDecodePlainAuth [0, 97, 33, 35, 0, 112]).Username = [97, 33, 35] ∧
    specUsernameOk [97, 33, 35] = false := by
  refine ⟨?_, ?_, ?_⟩ <;> decide

/-- C7 (amended): the post-handshake buffer extraction
(`extractPlainUsername`, `extractScramUsername`, `extractGenericUsername`)
and the raw-token extractor `extractSaslPlainUsername` only emit usernames
from the class `[A-Za-z0-9._@-]` with length in [3, 100]; the structured
SaslAuthenticate decoding (`tryDecodePlainAuth`) does not enforce this. -/
theorem c7_validated_extractors :
    (∀ data, extractPlainUsername data ≠ [] →
        specUsernameOk (extractPlainUsername data) = true) ∧
    (∀ data, extractScramUsername data ≠ [] →
        specUsernameOk (extractScramUsername data) = true) ∧
    (∀ data, extractGenericUsername data ≠ [] →
        specUsernameOk (extractGenericUsername data) = true) ∧
    (∀ data u, extractSaslPlainUsername data = (u, true) →
        specUsernameOk u = true) := by
  refine ⟨?_, ?_, ?_, ?_⟩
  · intro data hne
    rcases extractPlainUsername_shape data with h | h
    · exact absurd h hne
    · exact isValid_imp_ok _ h
  · intro data hne
    rcases extractScramUsername_shape data with h | h
    · exact absurd h hne
    · exact isValid_imp_ok _ h
  · intro data hne
    rcases extractGenericUsername_shape data with h | h
    · exact absurd h hne
    · exact isValid_imp_ok _ h
  · intro data u h
    unfold extractSaslPlainUsername at h
    split at h
    · simp at h
    · split at h
      · split at h
        · next c hc =>
            injection h with h1 h2
            exact h1 ▸ consoleScan_ok _ _ hc
        · injection h with h1 h2
          rw [← h1]
          decide
      · split at h
        · next p hp =>
            injection h with h1 h2
            obtain ⟨r, -, hfr⟩ := findSome?_mem _ _ _ hp
            exact h1 ▸ partCheck_ok r p hfr
        · simp at h

/-- Witness for `c7_validated_extractors` on the PLAIN token
`00 61 62 63 00 70`, whose extracted username `abc` is validated. -/
theorem c7_validated_extractors_witness :
    specUsernameOk (extractPlainUsername [0, 97, 98, 99, 0, 112]) = true :=
  c7_validated_extractors.1 [0, 97, 98, 99, 0, 112] (by decide)

/-! ## C8: SASL auth session tracker (package kafka, auth session file)

The tracker state is the two maps `authSessions` (endpoint → session) and
`ipToUsername` (base IP → username), modelled as association lists with Go
map upsert semantics. Go strings are `List Char` here, since the tracker
splits and scans them. Timestamps are not consulted by any read operation
in the source (`GetAuthSession` performs no freshness check and
`cleanupOldSessions` only prunes `authSessions` on handshakes, never
`ipToUsername`), so they are omitted from the state. -/

/-- `strings.Split` on a one-character separator. -/
def splitOnChar (sep : Char) : List Char → List (List Char)
  | [] => [[]]
  | b :: rest =>
      let r := splitOnChar sep rest
      if b = sep then [] :: r
      else
        match r with
        | h :: t => (b :: h) :: t
        | [] => [[b]]

/-- `AuthSession` (timestamp omitted, see section comment). -/
structure AuthSession where
  ClientAddr : List Char
  Mechanism : List Char
  Username : List Char
  deriving DecidableEq, Repr

/-- Go map insert-or-replace on an association list. -/
def aupsert {κ α : Type} [DecidableEq κ] (k : κ) (v : α) :
    List (κ × α) → List (κ × α)
  | [] => [(k, v)]
  | (k', v') :: rest =>
      if k' = k then (k, v) :: rest else (k', v') :: aupsert k v rest

/-- Go map lookup on an association list. -/
def alookup {κ α : Type} [DecidableEq κ] (k : κ) :
    List (κ × α) → Option α
  | [] => none
  | (k', v') :: rest => if k' = k then some v' else alookup k rest

/-- The two global maps of the auth session tracker. -/
structure AuthState where
  authSessions : List (List Char × AuthSession)
  ipToUsername : List (List Char × List Char)
  deriving DecidableEq, Repr

/-- `extractBaseIP`: strip the `:port` suffix; IPv6 `[addr]:port` loses the
brackets and port; bare IPv6 is returned whole. -/
def extractBaseIP (addr : List Char) : List Char :=
  let parts := splitOnChar ':' addr
  if parts.length > 0 then
    if addr.count ':' > 1 ∧ (addr.take 1 = ['['] ∨ ¬ addr.contains '.') then
      if addr.take 1 = ['['] ∧ addr.contains ']' then
        match splitOnChar ']' addr with
        | p :: _ => if p.take 1 = ['['] then p.drop 1 else p
        | [] => addr
      else addr
    else parts.headD addr
  else addr

/-- `StoreAuthHandshake`: a fresh session (no username yet) for the
endpoint. The time-based `cleanupOldSessions` sweep is not modelled. -/
def StoreAuthHandshake (clientAddr mechanism : List Char) (s : AuthState) :
    AuthState :=
  { s with authSessions :=
      aupsert clientAddr ⟨clientAddr, mechanism, []⟩ s.authSessions }

/-- `UpdateAuthSession`: set the username on an existing session (if any)
and always map the base IP to the username. -/
def UpdateAuthSession (clientAddr username : List Char) (s : AuthState) :
    AuthState :=
  match alookup clientAddr s.authSessions with
  | none =>
      { s with ipToUsername :=
          aupsert (extractBaseIP clientAddr) username s.ipToUsername }
  | some sess =>
      { authSessions :=
          aupsert clientAddr { sess with Username := username } s.authSessions,
        ipToUsername :=
          aupsert (extractBaseIP clientAddr) username s.ipToUsername }

/-- `GetAuthSession`: exact endpoint match first; otherwise a synthetic
session built from the base-IP username map. -/
def GetAuthSession (clientAddr : List Char) (s : AuthState) :
    Option AuthSession :=
  match alookup clientAddr s.authSessions with
  | some sess => some sess
  | none =>
      match alookup (extractBaseIP clientAddr) s.ipToUsername with
      | some u => some ⟨clientAddr, [], u⟩
      | none => none

/-- Lookup after an upsert of the same key. -/
theorem alookup_aupsert_self {κ α : Type} [DecidableEq κ] (k : κ) (v : α)
    (m : List (κ × α)) : alookup k (aupsert k v m) = some v := by
  induction m with
  | nil => simp [aupsert, alookup]
  | cons p rest ih =>
      obtain ⟨k', v'⟩ := p
      by_cases h : k' = k
      · simp [aupsert, alookup, h]
      · simp [aupsert, alookup, h, ih]

/-- Lookup after an upsert of a different key. -/
theorem alookup_aupsert_ne {κ α : Type} [DecidableEq κ] (k k' : κ) (v : α)
    (m : List (κ × α)) (h : k' ≠ k) :
    alookup k' (aupsert k v m) = alookup k' m := by
  have h2 : ¬ k = k' := fun hc => h hc.symm
  induction m with
  | nil => simp [aupsert, alookup, h2]
  | cons p rest ih =>
      obtain ⟨k0, v0⟩ := p
      by_cases hk : k0 = k
      · subst hk
        simp [aupsert, alookup, h2]
      · simp only [aupsert, if_neg hk, alookup]
        split
        · rfl
        · exact ih

/-- C8 counterexample: after a handshake on port 1000 (no authentication)
and a recorded authentication as `alice` on port 2000 of the same host, the
lookup of the port-1000 endpoint returns the stale empty username — the
exact-endpoint session shadows the base-IP mapping. -/
theorem c8_counterexample :
    (GetAuthSession "1.2.3.4:1000".toList
        (UpdateAuthSession "1.2.3.4:2000".toList "alice".toList
          (StoreAuthHandshake "1.2.3.4:1000".toList "PLAIN".toList
            ⟨[], []⟩))).map AuthSession.Username = some [] ∧
    extractBaseIP "1.2.3.4:1000".toList = extractBaseIP "1.2.3.4:2000".toList ∧
    ([] : List Char) ≠ "alice".toList := by
  refine ⟨by decide, by decide, by decide⟩

/-- C8 (amended): once `UpdateAuthSession e u` has returned, a lookup of `e`
returns `u`, and a lookup of an endpoint `e'` with the same base IP returns
`u` provided no auth session entry exists for `e'` itself (an existing
session for `e'` — e.g. a handshake without completed authentication —
shadows the base-IP mapping). No TTL is involved: the source checks no
timestamps on the lookup path. -/
theorem c8_lookup_after_record (s : AuthState) (e e' u : List Char)
    (hbase : extractBaseIP e' = extractBaseIP e)
    (hnosess : alookup e' s.authSessions = none) :
    ((GetAuthSession e (UpdateAuthSession e u s)).map
        AuthSession.Username = some u) ∧
    ((GetAuthSession e' (UpdateAuthSession e u s)).map
        AuthSession.Username = some u) := by
  unfold UpdateAuthSession
  cases hle : alookup e s.authSessions with
  | none =>
      constructor
      · simp [GetAuthSession, hle, alookup_aupsert_self]
      · simp [GetAuthSession, hnosess, hbase, alookup_aupsert_self]
  | some sess =>
      have hne : e' ≠ e := by
        intro hcon
        rw [hcon, hle] at hnosess
        cases hnosess
      constructor
      · simp [GetAuthSession, alookup_aupsert_self]
      · simp [GetAuthSession, alookup_aupsert_ne _ _ _ _ hne, hnosess, hbase,
          alookup_aupsert_self]

/-- Witness for `c8_lookup_after_record`: host `1.2.3.4`, authentication on
port 2000, lookup on port 1000 with no session for that endpoint. -/
theorem c8_lookup_after_record_witness :
    ((GetAuthSession "1.2.3.4:2000".toList
        (UpdateAuthSession "1.2.3.4:2000".toList "alice".toList
          ⟨[], []⟩)).map AuthSession.Username = some "alice".toList) ∧
    ((GetAuthSession "1.2.3.4:1000".toList
        (UpdateAuthSession "1.2.3.4:2000".toList "alice".toList
          ⟨[], []⟩)).map AuthSession.Username = some "alice".toList) :=
  c8_lookup_after_record ⟨[], []⟩ "1.2.3.4:2000".toList "1.2.3.4:1000".toList
    "alice".toList (by decide) (by decide)

/-! ## Stream orchestrator (stream package: KafkaStream.run,
request_logger.go) and request dispatch (kafka: allocateBody)

Topic names and metric labels are opaque here, so they are Lean `String`s.
The per-frame effect of `KafkaStream.run` on the metric store is modelled
as a list of metric events; the SASL correlator state consulted by the
username-resolution chains is abstracted into the resolved values carried
by `StreamCtx`. -/

/-- `getApiName` (stream/request_logger.go): API key to name, keys 0–67,
`Unknown(<key>)` otherwise. -/
def getApiName (key : Int) : String :=
  match key with
  | 0 => "Produce"
  | 1 => "Fetch"
  | 2 => "ListOffsets"
  | 3 => "Metadata"
  | 4 => "LeaderAndIsr"
  | 5 => "StopReplica"
  | 6 => "UpdateMetadata"
  | 7 => "ControlledShutdown"
  | 8 => "OffsetCommit"
  | 9 => "OffsetFetch"
  | 10 => "FindCoordinator"
  | 11 => "JoinGroup"
  | 12 => "Heartbeat"
  | 13 => "LeaveGroup"
  | 14 => "SyncGroup"
  | 15 => "DescribeGroups"
  | 16 => "ListGroups"
  | 17 => "SaslHandshake"
  | 18 => "ApiVersions"
  | 19 => "CreateTopics"
  | 20 => "DeleteTopics"
  | 21 => "DeleteRecords"
  | 22 => "InitProducerId"
  | 23 => "OffsetForLeaderEpoch"
  | 24 => "AddPartitionsToTxn"
  | 25 => "AddOffsetsToTxn"
  | 26 => "EndTxn"
  | 27 => "WriteTxnMarkers"
  | 28 => "TxnOffsetCommit"
  | 29 => "DescribeAcls"
  | 30 => "CreateAcls"
  | 31 => "DeleteAcls"
  | 32 => "DescribeConfigs"
  | 33 => "AlterConfigs"
  | 34 => "AlterReplicaLogDirs"
  | 35 => "DescribeLogDirs"
  | 36 => "SaslAuthenticate"
  | 37 => "CreatePartitions"
  | 38 => "CreateDelegationToken"
  | 39 => "RenewDelegationToken"
  | 40 => "ExpireDelegationToken"
  | 41 => "DescribeDelegationToken"
  | 42 => "DeleteGroups"
  | 43 => "ElectLeaders"
  | 44 => "IncrementalAlterConfigs"
  | 45 => "AlterPartitionReassignments"
  | 46 => "ListPartitionReassignments"
  | 47 => "OffsetDelete"
  | 48 => "DescribeClientQuotas"
  | 49 => "AlterClientQuotas"
  | 50 => "DescribeUserScramCredentials"
  | 51 => "AlterUserScramCredentials"
  | 52 => "Vote"
  | 53 => "BeginQuorumEpoch"
  | 54 => "EndQuorumEpoch"
  | 55 => "DescribeQuorum"
  | 56 => "AlterPartition"
  | 57 => "UpdateFeatures"
  | 58 => "Envelope"
  | 59 => "FetchSnapshot"
  | 60 => "DescribeCluster"
  | 61 => "DescribeProducers"
  | 62 => "BrokerRegistration"
  | 63 => "BrokerHeartbeat"
  | 64 => "UnregisterBroker"
  | 65 => "DescribeTransactions"
  | 66 => "ListTransactions"
  | 67 => "AllocateProducerIds"
  | _ => s!"Unknown({key})"

/-- Which request struct `allocateBody` resolves for an API key. -/
inductive BodyKind
  | produce
  | fetch
  | listOffsets
  | metadata
  | describeGroups
  | findCoordinator
  | apiVersions
  | deleteTopics
  | describeConfigs
  | saslHandshake
  | saslAuthenticate
  | createTopics
  | generic (apiName : String)
  deriving DecidableEq, Repr

/-- `allocateBody` (kafka request decoder): the full API-key switch. Note
the source maps key 19 to `DeleteTopicsRequest` and has no case allocating
`CreateTopicsRequest` at all. -/
def allocateBody (key : Int) (_version : Int) : BodyKind :=
  match key with
  | 0 => .produce
  | 1 => .fetch
  | 2 => .listOffsets
  | 3 => .metadata
  | 8 => .describeGroups
  | 10 => .findCoordinator
  | 18 => .apiVersions
  | 19 => .deleteTopics
  | 32 => .describeConfigs
  | 4 => .generic "LeaderAndIsr"
  | 5 => .generic "StopReplica"
  | 6 => .generic "UpdateMetadata"
  | 7 => .generic "ControlledShutdown"
  | 9 => .generic "OffsetFetch"
  | 11 => .generic "JoinGroup"
  | 12 => .generic "Heartbeat"
  | 13 => .generic "LeaveGroup"
  | 14 => .generic "SyncGroup"
  | 15 => .generic "DescribeGroups"
  | 16 => .generic "ListGroups"
  | 17 => .saslHandshake
  | 20 => .generic "DeleteRecords"
  | 21 => .generic "InitProducerId"
  | 22 => .generic "OffsetForLeaderEpoch"
  | 23 => .generic "AddPartitionsToTxn"
  | 24 => .generic "AddOffsetsToTxn"
  | 25 => .generic "EndTxn"
  | 26 => .generic "WriteTxnMarkers"
  | 27 => .generic "TxnOffsetCommit"
  | 28 => .generic "DescribeAcls"
  | 29 => .generic "CreateAcls"
  | 30 => .generic "DeleteAcls"
  | 31 => .generic "DeleteAcls"
  | 33 => .generic "AlterConfigs"
  | 34 => .generic "AlterReplicaLogDirs"
  | 35 => .generic "DescribeLogDirs"
  | 36 => .saslAuthenticate
  | 37 => .generic "CreatePartitions"
  | 38 => .generic "CreateDelegationToken"
  | 39 => .generic "RenewDelegationToken"
  | 40 => .generic "ExpireDelegationToken"
  | 41 => .generic "DescribeDelegationToken"
  | 42 => .generic "DeleteGroups"
  | 43 => .generic "ElectLeaders"
  | 44 => .generic "IncrementalAlterConfigs"
  | 45 => .generic "AlterPartitionReassignments"
  | 46 => .generic "ListPartitionReassignments"
  | 47 => .generic "OffsetDelete"
  | 48 => .generic "DescribeClientQuotas"
  | 49 => .generic "AlterClientQuotas"
  | 50 => .generic "DescribeUserScramCredentials"
  | 51 => .generic "AlterUserScramCredentials"
  | 52 => .generic "VoteRequest"
  | 53 => .generic "BeginQuorumEpoch"
  | 54 => .generic "EndQuorumEpoch"
  | 55 => .generic "DescribeQuorum"
  | 56 => .generic "AlterIsr"
  | 57 => .generic "UpdateFeatures"
  | 58 => .generic "Envelope"
  | 59 => .generic "FetchSnapshot"
  | 60 => .generic "DescribeCluster"
  | 61 => .generic "DescribeProducers"
  | 62 => .generic "BrokerRegistration"
  | 63 => .generic "BrokerHeartbeat"
  | 64 => .generic "UnregisterBroker"
  | 65 => .generic "DescribeTransactions"
  | 66 => .generic "ListTransactions"
  | 67 => .generic "AllocateProducerIds"
  | 68 => .generic "ConsumerGroupHeartbeat"
  | 69 => .generic "ConsumerGroupDescribe"
  | 71 => .generic "GetTelemetrySubscriptions"
  | 72 => .generic "PushTelemetry"
  | 74 => .generic "ListClientMetricsResources"
  | 75 => .generic "DescribeTopicPartitions"
  | 80 => .generic "AddRaftVoter"
  | 81 => .generic "RemoveRaftVoter"
  | _ => .generic s!"Unknown({key})"

/-- `CreateTopicsRequest.key()` — the API key the CreateTopics request
struct declares for itself. -/
def createTopicsRequestKey : Int := 19

/-- `DeleteTopicsRequest.key()`. -/
def deleteTopicsRequestKey : Int := 20

/-- A decoded `FetchRequest` as far as the metrics paths read it: its
version and its blocks map (topic → requested partitions). -/
structure FetchReq where
  Version : Int
  blocks : List (String × List Int)
  deriving DecidableEq, Repr

/-- `FetchRequest.ExtractTopics`: the keys of the blocks map. -/
def FetchReq.extractTopics (r : FetchReq) : List String :=
  r.blocks.map (·.1)

/-- `FetchRequest.GetRequestedBlocksCount`: total partition blocks over all
topics. -/
def FetchReq.requestedBlocksCount (r : FetchReq) : Nat :=
  (r.blocks.map (·.2.length)).sum

/-- The decoded body as the orchestrator's type switch distinguishes it. -/
inductive ReqBody
  | produce (topics : List String)
  | fetch (r : FetchReq)
  | listOffsets (topics : List String)
  | metadata (topics : List String)
  | saslHandshake (mechanism : String)
  | saslAuthenticate (username mechanism : String)
  | deleteTopics (topics : List String)
  | apiVersions
  | generic (apiKey : Int) (apiName : String)
  deriving DecidableEq, Repr

/-- One update of the metric store or of a labelled Prometheus metric. -/
inductive MetricEvent
  | typedRequest (clientIp requestType version : String)
  | blocksRequested (clientIp : String) (n : Nat)
  | producerTopicRelation (clientIp topic : String)
  | consumerTopicRelation (clientIp topic : String)
  | producerUserTopic (clientIp username topic : String)
  | consumerUserTopic (clientIp username topic : String)
  | authenticationInfo (clientIp mechanism username : String)
  | authUserActivity (clientIp username mechanism : String)
  | activeConnections (label : String)
  deriving DecidableEq, Repr

/-- Ambient state of one stream iteration: the source IP, the stream's
cached username, and the results of the store/tracker lookups the branches
perform (abstracted to their values; the maps themselves live in the store
and the correlator). `bufferedProbe` is the telemetry `tryExtractAuthData`
would emit for the bytes currently buffered (SaslHandshake branch only). -/
structure StreamCtx where
  clientIp : String
  currentUsername : String
  trackerUser : String
  storageUser : Option String
  producerTopics : List String
  consumerTopics : List String
  defaultStorageSet : Bool
  bufferedProbe : List MetricEvent
  deriving Repr

/-- The username-resolution chain of the Produce / Fetch branches: the
stream's cached username, else the global tracker (base-IP lookup, then
session lookup — abstracted to `trackerUser`). -/
def resolveUser (ctx : StreamCtx) : String :=
  if ctx.currentUsername ≠ "" then ctx.currentUsername else ctx.trackerUser

/-- `Storage.AddProducerTopicRelationInfo`: set the expiring gauge, and if
the store knows a username for this client, also set the user/topic gauge. -/
def addProducerTopicRelationInfo (ctx : StreamCtx) (topic : String) :
    List MetricEvent :=
  .producerTopicRelation ctx.clientIp topic ::
    (match ctx.storageUser with
     | some w => [.producerUserTopic ctx.clientIp w topic]
     | none => [])

/-- `Storage.AddConsumerTopicRelationInfo`: consumer-side counterpart. -/
def addConsumerTopicRelationInfo (ctx : StreamCtx) (topic : String) :
    List MetricEvent :=
  .consumerTopicRelation ctx.clientIp topic ::
    (match ctx.storageUser with
     | some w => [.consumerUserTopic ctx.clientIp w topic]
     | none => [])

/-- The Produce branch of the orchestrator's type switch. -/
def processProduce (ctx : StreamCtx) (topics : List String) :
    List MetricEvent :=
  topics.flatMap (fun t =>
    addProducerTopicRelationInfo ctx t ++
      (if resolveUser ctx ≠ "" then
        [.producerUserTopic ctx.clientIp (resolveUser ctx) t]
      else []))

/-- The Fetch branch of the orchestrator's type switch: per topic, the
consumer relation gauge and (when a username resolves) the user/topic
gauge. No blocks-requested counter is touched on this path. -/
def processFetch (ctx : StreamCtx) (r : FetchReq) : List MetricEvent :=
  r.extractTopics.flatMap (fun t =>
    addConsumerTopicRelationInfo ctx t ++
      (if resolveUser ctx ≠ "" then
        [.consumerUserTopic ctx.clientIp (resolveUser ctx) t]
      else []))

/-- `FetchRequest.CollectClientMetrics` — defined by the source (typed
count labelled `fetch` plus the blocks-requested counter) but never invoked
anywhere in the repository. -/
def fetchCollectClientMetrics (srcHost : String) (r : FetchReq) :
    List MetricEvent :=
  [.typedRequest srcHost "fetch" (toString r.Version),
   .blocksRequested srcHost r.requestedBlocksCount]

/-- The ListOffsets branch: consumer relation per topic, user/topic gauge
only from the stream's cached username. -/
def processListOffsets (ctx : StreamCtx) (topics : List String) :
    List MetricEvent :=
  topics.flatMap (fun t =>
    addConsumerTopicRelationInfo ctx t ++
      (if ctx.currentUsername ≠ "" then
        [.consumerUserTopic ctx.clientIp ctx.currentUsername t]
      else []))

/-- `RecordAuthUser` (metrics): auth-user activity gauge plus the back-fill
of user/topic gauges when the default storage is wired. -/
def recordAuthUserEvents (ctx : StreamCtx) (u m : String) :
    List MetricEvent :=
  if u = "" then []
  else
    .authUserActivity ctx.clientIp u m ::
      (if ctx.defaultStorageSet then
        ctx.producerTopics.map (fun t => .producerUserTopic ctx.clientIp u t) ++
          ctx.consumerTopics.map (fun t => .consumerUserTopic ctx.clientIp u t)
      else [])

/-- `TrackSaslAuthentication` (metrics). -/
def trackSaslAuthenticationEvents (ctx : StreamCtx) (m u : String) :
    List MetricEvent :=
  if m ≠ "" then
    .authenticationInfo ctx.clientIp m u ::
      (recordAuthUserEvents ctx u m ++
        (if u ≠ "" ∧ ctx.defaultStorageSet then
          [.activeConnections ctx.clientIp]
        else []))
  else []

/-- `Storage.AddUserClientMapping` → `updateUserTopicMetrics`: back-fill of
user/topic gauges from the store's remembered topics. -/
def addUserClientMappingEvents (ctx : StreamCtx) (u : String) :
    List MetricEvent :=
  ctx.producerTopics.map (fun t => .producerUserTopic ctx.clientIp u t) ++
    ctx.consumerTopics.map (fun t => .consumerUserTopic ctx.clientIp u t)

/-- `KafkaStream.updateExistingTopicRelationships` for a freshly learned
username. -/
def updateExistingRelsEvents (ctx : StreamCtx) (u : String) :
    List MetricEvent :=
  if u = "" ∨ ctx.clientIp = "" then []
  else
    ctx.producerTopics.map (fun t => .producerUserTopic ctx.clientIp u t) ++
      ctx.consumerTopics.map (fun t => .consumerUserTopic ctx.clientIp u t)

/-- The SaslAuthenticate branch (username already derived by the body
decoder). The SASL-correlator updates are state changes of C5, not metric
events. -/
def processSaslAuthenticate (ctx : StreamCtx) (u m : String) :
    List MetricEvent :=
  if u ≠ "" then
    .authenticationInfo ctx.clientIp m u ::
      (trackSaslAuthenticationEvents ctx m u ++
        addUserClientMappingEvents ctx u ++
        updateExistingRelsEvents ctx u)
  else []

/-- One successfully decoded frame through `KafkaStream.run`:
`logRequestHeaderDetails` increments the typed-request counter with
`getApiName`, then the body-type switch runs. Bodies with no case
(DeleteTopics, ApiVersions, Generic, …) produce nothing further. -/
def processFrame (ctx : StreamCtx) (key version : Int) (body : ReqBody) :
    List MetricEvent :=
  .typedRequest ctx.clientIp (getApiName key) (toString version) ::
    (match body with
     | .produce ts => processProduce ctx ts
     | .fetch r => processFetch ctx r
     | .listOffsets ts => processListOffsets ctx ts
     | .metadata _ => []
     | .saslAuthenticate u m => processSaslAuthenticate ctx u m
     | .saslHandshake _ => ctx.bufferedProbe
     | .deleteTopics _ => []
     | .apiVersions => []
     | .generic _ _ => [])

/-- The outcome of `kafka.DecodeRequest` as `KafkaStream.run` sees it. -/
inductive DecodeOutcome
  | ioEof
  | pdError (readBytesReturn : Nat)
  | otherError
  | success (key version : Int) (body : ReqBody)
  deriving DecidableEq, Repr

/-- One iteration of the `KafkaStream.run` loop: events emitted, whether
the loop continues, and how many bytes it asks `Discard` to skip. On
`io.EOF` / `io.ErrUnexpectedEOF` the loop returns; on a
`PacketDecodingError` it discards the reported byte count and continues
without recording anything; on any other error it just continues. -/
def runIter (ctx : StreamCtx) : DecodeOutcome → List MetricEvent × Bool × Nat
  | .ioEof => ([], false, 0)
  | .pdError rb => ([], true, rb)
  | .otherError => ([], true, 0)
  | .success k v b => (processFrame ctx k v b, true, 0)

/-- The frame-level phase of `kafka.DecodeRequest` over a byte stream:
read the 8 header bytes, apply the length guards, then read `length` body
bytes. Each constructor carries the bytes actually consumed from the
stream; the guard failures also carry the `bytesRead` value the function
returns (`int(length) + needReadBytes` on the size guard, `needReadBytes`
on the negative-length guard). -/
inductive FrameDecode
  | headerIoError (consumed : Nat)
  | bodyIoError (consumed : Nat)
  | lengthError (consumed readBytesReturn : Nat)
  | sizeError (consumed readBytesReturn : Nat)
  | bodyToDecode (consumed : Nat) (key version : Int) (body : List Nat)
  deriving DecidableEq, Repr

/-- See `FrameDecode`. -/
def decodeRequestFrame (stream : List Nat) : FrameDecode :=
  match stream with
  | b0 :: b1 :: b2 :: b3 :: b4 :: b5 :: b6 :: b7 :: rest =>
      let size := toInt32 (beUint32 b0 b1 b2 b3)
      let length := wrap32 (size - 4)
      if length < 0 then .lengthError 8 8
      else if length ≤ 4 ∨ length > MaxRequestSize then
        .sizeError 8 (length.toNat + 8)
      else if rest.length < length.toNat then .bodyIoError (8 + rest.length)
      else
        .bodyToDecode (8 + length.toNat) (toInt16 (beUint16 b4 b5))
          (toInt16 (beUint16 b6 b7)) (rest.take length.toNat)
  | _ => .headerIoError stream.length

/-- Total bytes a `KafkaStream.run` iteration takes from the stream for a
frame rejected by the length guards: the header bytes `DecodeRequest` read
plus the `Discard(readBytes)` the caller then performs (bounded by what the
stream still holds). `none` when the guards did not fire. -/
def badFrameTotalConsumed (stream : List Nat) : Option Nat :=
  match decodeRequestFrame stream with
  | .sizeError consumed rb => some (consumed + min rb (stream.length - consumed))
  | .lengthError consumed rb => some (consumed + min rb (stream.length - consumed))
  | _ => none

/-- C4: for the undersized frame with declared size 5 (followed by 20 more
stream bytes), the orchestrator consumes 8 header bytes and then discards
`declared size + 4 = 9` more — 17 bytes in total, which is `declared size
+ 12`, not the `4 + declared size = 9` bytes of the frame itself: resync
overshoots the next frame boundary by 8 bytes. -/
theorem c4_bad_frame_consumption :
    badFrameTotalConsumed ([0, 0, 0, 5, 0, 1, 0, 11] ++ List.replicate 20 0) =
      some 17 ∧ (17 : Nat) ≠ 4 + 5 := by
  constructor <;> decide

/-- `Request.Decode` as it runs for a frame whose key resolves the
SaslHandshake body decoder (key 17): correlation id, client id, then the
mechanism string. -/
def requestDecodeSaslHandshake (body : List Nat) : Except PDErr ReqBody := do
  let (_corr, r1) ← getInt32 body
  let (_clientID, r2) ← getString r1
  let (mech, _) ← getString r2
  .ok (.saslHandshake (String.mk (mech.map Char.ofNat)))

/-- The `DecodeOutcome` `KafkaStream.run` observes for a frame carrying api
key 17: header io errors end the loop (`io.EOF` / `io.ErrUnexpectedEOF`),
guard failures and body-decode failures surface as `PacketDecodingError`
with the reported `bytesRead` (the full consumed count on the decode-error
path). -/
def saslHandshakeFrameOutcome (stream : List Nat) : DecodeOutcome :=
  match decodeRequestFrame stream with
  | .headerIoError _ => .ioEof
  | .bodyIoError _ => .otherError
  | .lengthError _ rb => .pdError rb
  | .sizeError _ rb => .pdError rb
  | .bodyToDecode consumed _key version body =>
      match requestDecodeSaslHandshake body with
      | .ok b => .success 17 version b
      | .error _ => .pdError consumed

/-- C9 counterexample: a SaslHandshake frame whose body is truncated inside
the client-id string decodes to a `PacketDecodingError`, and the run-loop
iteration for that outcome emits no metric event at all — in particular no
typed-request increment — while continuing the flow. -/
theorem c9_counterexample :
    saslHandshakeFrameOutcome ([0, 0, 0, 9, 0, 17, 0, 0] ++ [0, 0, 0, 1, 0]) =
      .pdError 13 ∧
    (runIter ⟨"10.0.0.1", "", "", none, [], [], false, []⟩
        (.pdError 13)).1 = [] ∧
    (runIter ⟨"10.0.0.1", "", "", none, [], [], false, []⟩
        (.pdError 13)).2.1 = true := by
  refine ⟨by decide, rfl, rfl⟩

/-- C9 (amended): on any decode error classified as a
`PacketDecodingError` (Truncated / MalformedLength included), the
orchestrator records nothing — no typed-request increment — discards the
reported byte count and continues the flow; only end-of-stream terminates
it. -/
theorem c9_decode_error_silent (ctx : StreamCtx) (rb : Nat) :
    (runIter ctx (.pdError rb)).1 = [] ∧
    (runIter ctx (.pdError rb)).2.1 = true ∧
    (runIter ctx (.pdError rb)).2.2 = rb ∧
    (runIter ctx .ioEof).2.1 = false :=
  ⟨rfl, rfl, rfl, rfl⟩

/-- Every event of the Fetch branch is a consumer-topic or a
consumer-user-topic gauge update for this client. -/
theorem processFetch_mem (ctx : StreamCtx) (r : FetchReq) (e : MetricEvent)
    (he : e ∈ processFetch ctx r) :
    (∃ t, e = .consumerTopicRelation ctx.clientIp t) ∨
      (∃ w t, e = .consumerUserTopic ctx.clientIp w t) := by
  unfold processFetch addConsumerTopicRelationInfo at he
  rw [List.mem_flatMap] at he
  obtain ⟨t, -, he⟩ := he
  rw [List.mem_append] at he
  rcases he with he | he
  · rw [List.mem_cons] at he
    rcases he with rfl | he
    · exact Or.inl ⟨t, rfl⟩
    · revert he
      cases ctx.storageUser with
      | some w =>
          intro he
          rw [List.mem_singleton] at he
          exact Or.inr ⟨w, t, he⟩
      | none => intro he; cases he
  · revert he
    split
    · intro he
      rw [List.mem_singleton] at he
      exact Or.inr ⟨_, t, he⟩
    · intro he; cases he

/-- C1 counterexample: processing a decoded Fetch v11 request with two
topics of three partitions each emits no typed-request increment labelled
`fetch` (the label is `Fetch`, from `getApiName`) and no blocks-requested
increment at all (`FetchRequest.CollectClientMetrics` is never called). -/
theorem c1_counterexample :
    ((runIter ⟨"10.0.0.1", "", "", none, [], [], false, []⟩
        (.success 1 11 (.fetch ⟨11, [("t1", [0, 1, 2]), ("t2", [0, 1, 2])]⟩))).1.count
        (.typedRequest "10.0.0.1" "fetch" "11") = 0) ∧
    ((runIter ⟨"10.0.0.1", "", "", none, [], [], false, []⟩
        (.success 1 11 (.fetch ⟨11, [("t1", [0, 1, 2]), ("t2", [0, 1, 2])]⟩))).1.countP
        (fun e => match e with
          | .blocksRequested _ _ => true
          | _ => false) = 0) ∧
    (FetchReq.requestedBlocksCount ⟨11, [("t1", [0, 1, 2]), ("t2", [0, 1, 2])]⟩ = 6) := by
  refine ⟨by decide, by decide, by decide⟩

/-- C1 (amended): for every successfully decoded Fetch request, the
orchestrator increments `typed_requests_total` once with labels
`(client_ip, "Fetch", version)` — the `getApiName` spelling, not `fetch` —
does not touch `blocks_requested`, and sets
`consumer_topic_relation_info{client_ip, topic}` for every topic of the
request. -/
theorem c1_fetch_processing (ctx : StreamCtx) (r : FetchReq) :
    ((runIter ctx (.success 1 r.Version (.fetch r))).1.count
        (.typedRequest ctx.clientIp "Fetch" (toString r.Version)) = 1) ∧
    ((runIter ctx (.success 1 r.Version (.fetch r))).1.countP
        (fun e => match e with
          | .blocksRequested _ _ => true
          | _ => false) = 0) ∧
    (∀ t ∈ r.extractTopics,
        MetricEvent.consumerTopicRelation ctx.clientIp t ∈
          (runIter ctx (.success 1 r.Version (.fetch r))).1) := by
  have hrw : (runIter ctx (.success 1 r.Version (.fetch r))).1 =
      MetricEvent.typedRequest ctx.clientIp "Fetch" (toString r.Version) ::
        processFetch ctx r := rfl
  refine ⟨?_, ?_, ?_⟩
  · have h0 : (processFetch ctx r).count
        (MetricEvent.typedRequest ctx.clientIp "Fetch" (toString r.Version)) = 0 := by
      rw [List.count_eq_zero]
      intro hmem
      rcases processFetch_mem ctx r _ hmem with ⟨t, h⟩ | ⟨w, t, h⟩ <;> simp at h
    rw [hrw]
    simp [List.count_cons, h0]
  · rw [hrw, List.countP_eq_zero]
    intro e he
    rcases List.mem_cons.mp he with rfl | he
    · simp
    · rcases processFetch_mem ctx r e he with ⟨t, rfl⟩ | ⟨w, t, rfl⟩ <;> simp
  · intro t ht
    rw [hrw]
    refine List.mem_cons_of_mem _ ?_
    unfold processFetch
    rw [List.mem_flatMap]
    exact ⟨t, ht, by simp [addConsumerTopicRelationInfo]⟩

/-- Witness for `c1_fetch_processing` on the Fetch v11 request with topics
`t1`, `t2`. -/
theorem c1_fetch_processing_witness :
    MetricEvent.consumerTopicRelation "10.0.0.1" "t1" ∈
      (runIter ⟨"10.0.0.1", "", "", none, [], [], false, []⟩
        (.success 1 11 (.fetch ⟨11, [("t1", [0, 1, 2]), ("t2", [0, 1, 2])]⟩))).1 :=
  (c1_fetch_processing ⟨"10.0.0.1", "", "", none, [], [], false, []⟩
    ⟨11, [("t1", [0, 1, 2]), ("t2", [0, 1, 2])]⟩).2.2 "t1" (by decide)

/-- C5: the source contradicts itself on api key 19. `allocateBody`
resolves `DeleteTopicsRequest` for key 19, although `getApiName` names key
19 `CreateTopics` and `CreateTopicsRequest.key()` itself returns 19 (while
`DeleteTopicsRequest.key()` returns 20); and the orchestrator's body-type
switch has no case for either body, so a key-19 frame updates no
producer/topic gauge — only the typed-request counter. -/
theorem c5_key19_mismatch :
    (∀ v, allocateBody 19 v = .deleteTopics) ∧
    createTopicsRequestKey = 19 ∧
    deleteTopicsRequestKey = 20 ∧
    getApiName 19 = "CreateTopics" ∧
    (∀ ctx ts v, (runIter ctx (.success 19 v (.deleteTopics ts))).1.countP
        (fun e => match e with
          | .producerTopicRelation _ _ => true
          | .producerUserTopic _ _ _ => true
          | _ => false) = 0) ∧
    (∀ ctx ts v, (runIter ctx (.success 19 v (.deleteTopics ts))).1 =
        [.typedRequest ctx.clientIp "CreateTopics" (toString v)]) := by
  refine ⟨fun v => rfl, rfl, rfl, rfl, fun ctx ts v => ?_, fun ctx ts v => rfl⟩
  rfl

/-! ## C2: expiring gauge relations (metrics store: `metric`, `relation`)

Discrete-time model of one gauge family. The exposed Prometheus gauge is
the list of label tuples currently present; the `relations` map is keyed
by `genLabelKey` (the labels joined with `_`, as in the source) and holds
each relation's stored labels and its timer deadline (last refresh time +
TTL). An observation (`set` / `inc`) makes the tuple present and resets
the deadline (`relation.refresh`); a relation's timer firing at a time not
before its deadline deletes the stored labels from the gauge and the entry
from the map (`metric.runExpiration`); a fire before the deadline is a
timer that was reset and does nothing. Label strings are `List Char`. -/

/-- `genLabelKey`: the label values joined with `_` (`strings.Join`). -/
def genLabelKey : List (List Char) → List Char
  | [] => []
  | [l] => l
  | l :: rest => l ++ '_' :: genLabelKey rest

/-- Go map entry removal. -/
def aremove {κ α : Type} [DecidableEq κ] (k : κ) :
    List (κ × α) → List (κ × α)
  | [] => []
  | (k', v) :: rest =>
      if k' = k then aremove k rest else (k', v) :: aremove k rest

/-- One expiring labelled gauge: exposed tuples and the relations map. -/
structure ExpMetric where
  gauge : List (List (List Char))
  relations : List (List Char × (List (List Char) × Nat))
  deriving DecidableEq, Repr

/-- A timed event on one gauge family. -/
inductive MEvent
  | obs (labels : List (List Char))
  | fire (key : List Char)
  deriving DecidableEq, Repr

/-- `metric.set` / `metric.inc` + `metric.update` at time `now`: the tuple
becomes present in the exposed gauge; an existing relation under the
tuple's key is refreshed (keeping its stored labels), otherwise a new
relation is created. -/
def obsStep (ttl now : Nat) (labels : List (List Char)) (m : ExpMetric) :
    ExpMetric :=
  { gauge := if labels ∈ m.gauge then m.gauge else m.gauge ++ [labels],
    relations :=
      match alookup (genLabelKey labels) m.relations with
      | some (ls, _) =>
          aupsert (genLabelKey labels) (ls, now + ttl) m.relations
      | none =>
          aupsert (genLabelKey labels) (labels, now + ttl) m.relations }

/-- A relation timer firing at time `now`: if the relation exists and its
deadline has been reached, `runExpiration` deletes the stored labels from
the gauge and the relation from the map; otherwise (timer was reset, or
relation already gone) nothing happens. -/
def fireStep (now : Nat) (key : List Char) (m : ExpMetric) : ExpMetric :=
  match alookup key m.relations with
  | some (ls, d) =>
      if d ≤ now then
        { gauge := m.gauge.filter (fun g => g ≠ ls),
          relations := aremove key m.relations }
      else m
  | none => m

/-- Process a timeline of events. -/
def processEvents (ttl : Nat) : ExpMetric → List (Nat × MEvent) → ExpMetric
  | m, [] => m
  | m, (t, .obs ls) :: rest => processEvents ttl (obsStep ttl t ls m) rest
  | m, (t, .fire k) :: rest => processEvents ttl (fireStep t k m) rest

/-- Well-formedness: every relation stores labels whose joined key is the
key it is filed under (true of every relation the store creates). -/
def keysOk (m : ExpMetric) : Prop :=
  ∀ p ∈ m.relations, genLabelKey p.2.1 = p.1

/-- Entries after an upsert: the new pair or an old entry. -/
theorem aupsert_mem {κ α : Type} [DecidableEq κ] (k : κ) (v : α)
    (m : List (κ × α)) (p : κ × α) (hp : p ∈ aupsert k v m) :
    p = (k, v) ∨ p ∈ m := by
  induction m with
  | nil =>
      rw [aupsert, List.mem_singleton] at hp
      exact Or.inl hp
  | cons q rest ih =>
      obtain ⟨k0, v0⟩ := q
      unfold aupsert at hp
      split at hp
      · rcases List.mem_cons.mp hp with rfl | hp
        · exact Or.inl rfl
        · exact Or.inr (List.mem_cons_of_mem _ hp)
      · rcases List.mem_cons.mp hp with rfl | hp
        · exact Or.inr (List.mem_cons_self _ _)
        · rcases ih hp with h | h
          · exact Or.inl h
          · exact Or.inr (List.mem_cons_of_mem _ h)

/-- Entries after a removal were already there. -/
theorem aremove_mem {κ α : Type} [DecidableEq κ] (k : κ)
    (m : List (κ × α)) (p : κ × α) (hp : p ∈ aremove k m) : p ∈ m := by
  induction m with
  | nil => cases hp
  | cons q rest ih =>
      obtain ⟨k0, v0⟩ := q
      unfold aremove at hp
      split at hp
      · exact List.mem_cons_of_mem _ (ih hp)
      · rcases List.mem_cons.mp hp with rfl | hp
        · exact List.mem_cons_self _ _
        · exact List.mem_cons_of_mem _ (ih hp)

/-- Removal empties the key's slot. -/
theorem alookup_aremove_self {κ α : Type} [DecidableEq κ] (k : κ)
    (m : List (κ × α)) : alookup k (aremove k m) = none := by
  induction m with
  | nil => rfl
  | cons q rest ih =>
      obtain ⟨k0, v0⟩ := q
      by_cases h : k0 = k
      · simp [aremove, h, ih]
      · simp [aremove, alookup, h, ih]

/-- Removal of one key leaves other keys' lookups unchanged. -/
theorem alookup_aremove_ne {κ α : Type} [DecidableEq κ] (k k' : κ)
    (m : List (κ × α)) (h : k' ≠ k) :
    alookup k' (aremove k m) = alookup k' m := by
  induction m with
  | nil => rfl
  | cons q rest ih =>
      obtain ⟨k0, v0⟩ := q
      by_cases hk : k0 = k
      · have h2 : ¬ k0 = k' := by
          rw [hk]
          exact fun hc => h hc.symm
        have h3 : ¬ k = k' := fun hc => h hc.symm
        simp [aremove, alookup, hk, h2, h3, ih]
      · simp only [aremove, if_neg hk, alookup]
        split
        · rfl
        · exact ih

/-- A successful lookup exhibits a member of the list. -/
theorem alookup_mem {κ α : Type} [DecidableEq κ] (k : κ) (v : α)
    (m : List (κ × α)) (h : alookup k m = some v) : (k, v) ∈ m := by
  induction m with
  | nil => cases h
  | cons q rest ih =>
      obtain ⟨k0, v0⟩ := q
      unfold alookup at h
      revert h
      split
      · next heq =>
          intro h
          injection h with h
          subst heq
          subst h
          exact List.mem_cons_self _ _
      · intro h
        exact List.mem_cons_of_mem _ (ih h)

/-- `obsStep` preserves well-formedness. -/
theorem obsStep_keysOk (ttl now : Nat) (labels : List (List Char))
    (m : ExpMetric) (hwf : keysOk m) : keysOk (obsStep ttl now labels m) := by
  intro p hp
  unfold obsStep at hp
  simp only at hp
  revert hp
  cases hrel : alookup (genLabelKey labels) m.relations with
  | some q =>
      obtain ⟨ls, d⟩ := q
      intro hp
      rcases aupsert_mem _ _ _ _ hp with rfl | hp
      · -- the refreshed entry keeps the stored labels; they obeyed the key
        exact hwf (genLabelKey labels, (ls, d)) (alookup_mem _ _ _ hrel)
      · exact hwf _ hp
  | none =>
      intro hp
      rcases aupsert_mem _ _ _ _ hp with rfl | hp
      · rfl
      · exact hwf _ hp

/-- `fireStep` preserves well-formedness. -/
theorem fireStep_keysOk (now : Nat) (key : List Char) (m : ExpMetric)
    (hwf : keysOk m) : keysOk (fireStep now key m) := by
  intro p hp
  unfold fireStep at hp
  revert hp
  cases alookup key m.relations with
  | some q =>
      obtain ⟨ls, d⟩ := q
      dsimp only
      by_cases hd : d ≤ now
      · rw [if_pos hd]
        intro hp
        exact hwf _ (aremove_mem _ _ _ hp)
      · rw [if_neg hd]
        intro hp
        exact hwf _ hp
  | none => intro hp; exact hwf _ hp

/-- Across events that never observe the tracked tuple's key, the tracked
relation either keeps its stored labels and deadline, or it (and its gauge
tuple) has been expired. -/
theorem processEvents_preserve (ttl : Nat) (l : List (List Char)) (dl : Nat)
    (evts : List (Nat × MEvent))
    (hno : ∀ p ∈ evts, ∀ ls, p.2 = MEvent.obs ls →
        genLabelKey ls ≠ genLabelKey l) :
    ∀ m : ExpMetric, keysOk m →
      (alookup (genLabelKey l) m.relations = some (l, dl) ∨
        (alookup (genLabelKey l) m.relations = none ∧ l ∉ m.gauge)) →
      keysOk (processEvents ttl m evts) ∧
        (alookup (genLabelKey l) (processEvents ttl m evts).relations
            = some (l, dl) ∨
          (alookup (genLabelKey l) (processEvents ttl m evts).relations
              = none ∧
            l ∉ (processEvents ttl m evts).gauge)) := by
  induction evts with
  | nil => exact fun m hwf hinv => ⟨hwf, hinv⟩
  | cons ev rest ih =>
      obtain ⟨t, e⟩ := ev
      intro m hwf hinv
      have hnoRest : ∀ p ∈ rest, ∀ ls, p.2 = MEvent.obs ls →
          genLabelKey ls ≠ genLabelKey l :=
        fun p hp => hno p (List.mem_cons_of_mem _ hp)
      cases e with
      | obs ls =>
          have hkey : genLabelKey ls ≠ genLabelKey l :=
            hno (t, .obs ls) (List.mem_cons_self _ _) ls rfl
          have hlne : l ≠ ls := fun hc => hkey (by rw [hc])
          have hrel1 : alookup (genLabelKey l)
              (obsStep ttl t ls m).relations =
              alookup (genLabelKey l) m.relations := by
            unfold obsStep
            dsimp only
            cases alookup (genLabelKey ls) m.relations with
            | some q =>
                obtain ⟨ls0, d0⟩ := q
                exact alookup_aupsert_ne _ _ _ _ (Ne.symm hkey)
            | none => exact alookup_aupsert_ne _ _ _ _ (Ne.symm hkey)
          have hgau1 : l ∉ m.gauge → l ∉ (obsStep ttl t ls m).gauge := by
            intro hg
            unfold obsStep
            dsimp only
            split
            · exact hg
            · rw [List.mem_append]
              rintro (hc | hc)
              · exact hg hc
              · rw [List.mem_singleton] at hc
                exact hlne hc
          refine ih hnoRest _ (obsStep_keysOk ttl t ls m hwf) ?_
          rcases hinv with hA | ⟨hN, hG⟩
          · exact Or.inl (hrel1.trans hA)
          · exact Or.inr ⟨hrel1.trans hN, hgau1 hG⟩
      | fire k =>
          refine ih hnoRest _ (fireStep_keysOk t k m hwf) ?_
          by_cases hk : k = genLabelKey l
          · subst hk
            rcases hinv with hA | ⟨hN, hG⟩
            · unfold fireStep
              rw [hA]
              dsimp only
              by_cases hd : dl ≤ t
              · rw [if_pos hd]
                refine Or.inr ⟨alookup_aremove_self _ _, ?_⟩
                intro hc
                rw [List.mem_filter] at hc
                simp at hc
              · rw [if_neg hd]
                exact Or.inl hA
            · unfold fireStep
              rw [hN]
              exact Or.inr ⟨hN, hG⟩
          · have hne2 : genLabelKey l ≠ k := fun hc => hk hc.symm
            have hrel1 : alookup (genLabelKey l) (fireStep t k m).relations =
                alookup (genLabelKey l) m.relations := by
              unfold fireStep
              cases alookup k m.relations with
              | some q =>
                  obtain ⟨ls0, d0⟩ := q
                  dsimp only
                  by_cases hd : d0 ≤ t
                  · rw [if_pos hd]
                    exact alookup_aremove_ne _ _ _ hne2
                  · rw [if_neg hd]
              | none => rfl
            have hgau1 : l ∉ m.gauge → l ∉ (fireStep t k m).gauge := by
              intro hg
              unfold fireStep
              cases alookup k m.relations with
              | some q =>
                  obtain ⟨ls0, d0⟩ := q
                  dsimp only
                  by_cases hd : d0 ≤ t
                  · rw [if_pos hd]
                    intro hc
                    rw [List.mem_filter] at hc
                    exact hg hc.1
                  · rw [if_neg hd]
                    exact hg
              | none => exact hg
            rcases hinv with hA | ⟨hN, hG⟩
            · exact Or.inl (hrel1.trans hA)
            · exact Or.inr ⟨hrel1.trans hN, hgau1 hG⟩

/-- C2 counterexample: with TTL 10, observe tuple `("a", "b_c")` at time 0
and tuple `("a_b", "c")` at time 5 — two different tuples whose joined
label keys collide. At time 12, after the first tuple's TTL has elapsed
with no re-observation of it, its timer check fires but refuses (its
shared relation was refreshed at time 5), and the tuple is still present in
the exposed gauge. -/
theorem c2_counterexample :
    [['a'], ['b', '_', 'c']] ∈
      (processEvents 10 ⟨[], []⟩
        [(0, .obs [['a'], ['b', '_', 'c']]),
         (5, .obs [['a', '_', 'b'], ['c']]),
         (12, .fire (genLabelKey [['a'], ['b', '_', 'c']]))]).gauge ∧
    genLabelKey [['a', '_', 'b'], ['c']] =
      genLabelKey [['a'], ['b', '_', 'c']] ∧
    [['a', '_', 'b'], ['c']] ≠ [['a'], ['b', '_', 'c']] ∧
    (0 : Nat) + 10 ≤ 12 := by
  refine ⟨by decide, by decide, by decide, by decide⟩

/-- C2 (amended): for an expiring gauge relation, if the TTL elapses after
the last observation of the tuple with no further observation of any tuple
sharing its joined label key (labels joined with `_` — distinct tuples can
collide), then when its timer fires the tuple is deleted from both the
relations map and the exposed gauge. The pre-existing relation under that
key, if any, must store this tuple's labels (true whenever the tuple was
the one that created it). -/
theorem c2_expiry_after_ttl (ttl : Nat) (m : ExpMetric)
    (l : List (List Char)) (t0 t : Nat) (evts : List (Nat × MEvent))
    (hwf : keysOk m)
    (hstored : ∀ ls d, alookup (genLabelKey l) m.relations = some (ls, d) →
        ls = l)
    (hno : ∀ p ∈ evts, ∀ ls, p.2 = MEvent.obs ls →
        genLabelKey ls ≠ genLabelKey l)
    (ht : t0 + ttl ≤ t) :
    l ∉ (fireStep t (genLabelKey l)
        (processEvents ttl (obsStep ttl t0 l m) evts)).gauge ∧
    alookup (genLabelKey l) (fireStep t (genLabelKey l)
        (processEvents ttl (obsStep ttl t0 l m) evts)).relations = none := by
  have hwf1 := obsStep_keysOk ttl t0 l m hwf
  have hA1 : alookup (genLabelKey l) (obsStep ttl t0 l m).relations =
      some (l, t0 + ttl) := by
    unfold obsStep
    dsimp only
    cases hrel : alookup (genLabelKey l) m.relations with
    | some q =>
        obtain ⟨ls0, d0⟩ := q
        have hsl := hstored ls0 d0 hrel
        subst hsl
        exact alookup_aupsert_self _ _ _
    | none => exact alookup_aupsert_self _ _ _
  obtain ⟨hwf2, hinv2⟩ :=
    processEvents_preserve ttl l (t0 + ttl) evts hno _ hwf1 (Or.inl hA1)
  rcases hinv2 with hA | ⟨hN, hG⟩
  · unfold fireStep
    rw [hA]
    dsimp only
    rw [if_pos ht]
    constructor
    · intro hc
      rw [List.mem_filter] at hc
      simp at hc
    · exact alookup_aremove_self _ _
  · unfold fireStep
    rw [hN]
    exact ⟨hG, hN⟩

/-- Witness for `c2_expiry_after_ttl`: TTL 10, a fresh store, tuple
`("a")`, observation at time 0, timer firing at time 10 with no
intervening events. -/
theorem c2_expiry_after_ttl_witness :
    [['a']] ∉ (fireStep 10 (genLabelKey [['a']])
        (processEvents 10 (obsStep 10 0 [['a']] ⟨[], []⟩) [])).gauge ∧
    alookup (genLabelKey [['a']]) (fireStep 10 (genLabelKey [['a']])
        (processEvents 10 (obsStep 10 0 [['a']] ⟨[], []⟩) [])).relations =
      none :=
  c2_expiry_after_ttl 10 ⟨[], []⟩ [['a']] 0 10 []
    (fun p hp => absurd hp (by simp))
    (fun ls d h => by cases h)
    (fun p hp => absurd hp (by simp))
    (by decide)

end Sniffer
